import Mathlib

/-
A shallow embedding of the taro-service build kernel
(packages/taro-service/src/Kernel.ts) and proofs about its
plugin/preset resolution engine and hook pipeline.

Modelling conventions:
 * JavaScript values are `Val` (undefined, numbers, strings, arrays,
   plain objects).
 * Thrown errors / rejected promises are `Except Err _`.
 * Hook handlers are pure functions `Val → Val → Except Err Val`
   (argument, options); each carries an identifier `hid` so that an
   execution trace of events (`Ev`) can record which handlers ran and
   which setup functions were invoked, in order.
 * tapable's `AsyncSeriesWaterfallHook` is embedded by its tap-insertion
   algorithm (`Hook._insert`, tapable v2: stage/before ordering) plus a
   strictly sequential runner; the kernel's tap callbacks always return
   the shared `resArr` array, which is never `undefined`, so the
   waterfall's undefined-keeps-previous-argument rule never fires and is
   not modelled.
-/

set_option maxRecDepth 8000

/-- JavaScript-style values flowing through the kernel. -/
inductive Val : Type where
  | undefined : Val
  | num : Int → Val
  | str : String → Val
  | arr : List Val → Val
  | obj : List (String × Val) → Val

/-- Errors the kernel can raise: duplicate plugin registration
(`插件 ... 已被注册`), a bad `applyPlugins` name (`调用失败，未传入正确的名称！`),
unknown command (`... 命令不存在`), unknown platform (`不存在编译平台 ...`),
a JavaScript TypeError (property access on `undefined`, or `path.join`
on a non-string), and arbitrary errors thrown by hook handlers. -/
inductive Err : Type where
  | dup : String → Err
  | badName : Err
  | noCommand : Val → Err
  | noPlatform : Val → Err
  | typeError : Err
  | user : Val → Err

/-- Observable events of a kernel run: `setup id` records that the
plugin/preset with the given id had its setup function invoked
(`apply()(pluginCtx, opts)`); `hookRun chain hid` records that handler
`hid` of hook chain `chain` was invoked by the waterfall runner. -/
inductive Ev : Type where
  | setup : String → Ev
  | hookRun : String → String → Ev
deriving DecidableEq

/-- A hook handler: the function registered via the plugin context,
tagged with an identifier used only for the event trace. -/
structure Handler : Type where
  hid : String
  fn : Val → Val → Except Err Val

/-- An entry of the kernel's `hooks` map (utils/types `IHook`): the hook
name it is registered under, the owning plugin's id (`hook.plugin`,
used as the tapable tap name), its stage (the source's `hook.stage || 0`
default is applied at registration time), its `before` constraint
(a missing constraint is the empty list), and the handler. -/
structure IHook : Type where
  name : String
  plugin : String
  stage : Int
  before : List String
  h : Handler

/-- A tapable tap as built by `applyPlugins`:
`{ name: hook.plugin, stage: hook.stage || 0, before: hook.before }`. -/
structure Tap : Type where
  name : String
  stage : Int
  before : List String
  h : Handler

/-- A hook registration performed by a setup function through the
plugin context (`ctx.tap` / `register`): hook name, stage, before,
handler. -/
structure HookDecl : Type where
  name : String
  stage : Int
  before : List String
  h : Handler

/-- A command entry (`ICommand`): name and handler. -/
structure ICommand : Type where
  name : String
  h : Handler

/-- A platform entry (`IPlatform`): name, the named-configuration key
`useConfigName`, and handler. -/
structure IPlatform : Type where
  name : String
  useConfigName : String
  h : Handler

/-- A resolved plugin/preset item, together with what its setup function
does when invoked.  The source's `IPlugin`/`IPreset` carry
`{id, path, opts, apply}`; module loading (`resolvePresetsOrPlugins`)
is external, so items are taken as already resolved.  A setup function
is modelled by its effects: the nested presets and plugins it returns
(only meaningful for presets; `initPlugin` discards the return value)
and the hook/command/platform registrations it performs through the
plugin context. -/
inductive PItem : Type where
  | mk : String → List PItem → List PItem →
         List HookDecl → List ICommand → List IPlatform → PItem

def PItem.id : PItem → String
  | .mk i _ _ _ _ _ => i

def PItem.presets : PItem → List PItem
  | .mk _ ps _ _ _ _ => ps

def PItem.plugins : PItem → List PItem
  | .mk _ _ ps _ _ _ => ps

def PItem.hookDecls : PItem → List HookDecl
  | .mk _ _ _ hs _ _ => hs

def PItem.cmdDecls : PItem → List ICommand
  | .mk _ _ _ _ cs _ => cs

def PItem.platDecls : PItem → List IPlatform
  | .mk _ _ _ _ _ ps => ps

/-- Lookup in a string-keyed map (JavaScript `Map.get`). -/
def alistGet? {α : Type} : List (String × α) → String → Option α
  | [], _ => none
  | (k, v) :: rest, key => if k = key then some v else alistGet? rest key

/-- Update in a string-keyed map (JavaScript `Map.set`): overwrite the
existing key in place, else append. -/
def alistSet {α : Type} : List (String × α) → String → α → List (String × α)
  | [], key, v => [(key, v)]
  | (k, w) :: rest, key, v =>
      if k = key then (key, v) :: rest else (k, w) :: alistSet rest key v

/-- JavaScript truthiness for the values we model. -/
def truthy : Val → Bool
  | .undefined => false
  | .num n => if n = 0 then false else true
  | .str s => if s = "" then false else true
  | .arr _ => true
  | .obj _ => true

/-- JavaScript property access `v[f]`: reading a property of `undefined`
throws a TypeError; objects yield the field (or `undefined`); other
primitives/arrays yield `undefined` (named fields of arrays are not
modelled). -/
def getField (v : Val) (f : String) : Except Err Val :=
  match v with
  | .undefined => .error .typeError
  | .obj fs =>
      match alistGet? fs f with
      | some w => .ok w
      | none => .ok .undefined
  | _ => .ok .undefined

/-- JavaScript property assignment `v[f] = w`: updates objects; on
primitives the write is silently dropped (non-strict mode). -/
def setField (v : Val) (f : String) (w : Val) : Val :=
  match v with
  | .obj fs => .obj (alistSet fs f w)
  | other => other

/-- `path.join` demands string segments and throws a TypeError
otherwise; used for the `as string` casts in `initPaths`. -/
def asString : Val → Except Err String
  | .str s => .ok s
  | _ => .error .typeError

/-- `path.join` of two segments (POSIX separator). -/
def pathJoin (a b : String) : String := a ++ "/" ++ b

/-- tapable `Hook._insert`, walking the existing taps right-to-left.
The input list is the reversal of the taps scanned so far (last tap
first, matching the source loop's direction); the output is the
reversed result.  A scanned tap named in the pending `before` set is
passed over (and removed from the set); while the set is non-empty the
scan keeps moving left; otherwise the new tap is placed after the first
tap whose stage does not exceed its own. -/
def insertAux (item : Tap) : List String → List Tap → List Tap
  | _, [] => [item]
  | before, x :: rest =>
      if x.name ∈ before then x :: insertAux item (before.erase x.name) rest
      else if before ≠ [] then x :: insertAux item before rest
      else if item.stage < x.stage then x :: insertAux item before rest
      else item :: x :: rest

/-- Insert one tap into the ordered tap list (tapable `_insert`). -/
def insertTap (taps : List Tap) (item : Tap) : List Tap :=
  (insertAux item item.before taps.reverse).reverse

/-- The tap built for a hook entry by `applyPlugins`. -/
def mkTap (h : IHook) : Tap :=
  { name := h.plugin, stage := h.stage, before := h.before, h := h.h }

/-- The total tap order produced by tapping every hook of a chain in
registration order. -/
def orderTaps (hooks : List IHook) : List Tap :=
  hooks.foldl (fun ts h => insertTap ts (mkTap h)) []

/-- The sequential waterfall execution of `applyPlugins`'s taps: `arg`
is the value passed to the next tap (the kernel's tap callback returns
the shared `resArr`, so after the first tap it is always `Val.arr` of
the results so far), `resArr` is the results accumulator, and `tr` the
event trace.  A handler error aborts the run and is propagated
unchanged. -/
def runTaps (chain : String) (opts : Val) :
    List Tap → Val → List Val → List Ev →
    Except (Err × List Ev) (Val × List Val × List Ev)
  | [], arg, resArr, tr => .ok (arg, resArr, tr)
  | t :: ts, arg, resArr, tr =>
      match t.h.fn arg opts with
      | .error e => .error (e, tr ++ [Ev.hookRun chain t.h.hid])
      | .ok res =>
          runTaps chain opts ts (Val.arr (resArr ++ [res])) (resArr ++ [res])
            (tr ++ [Ev.hookRun chain t.h.hid])

/-- The kernel's mutable state: registered plugin ids (`plugins` map
keys, in registration order), the transient `extraPlugins` queue, the
`hooks` map (kept flat; a chain is the name-filtered sublist, which
agrees with the source's per-name `Map` of arrays because registration
appends), the `commands` and `platforms` maps, the resolved
`initialConfig` and `paths`, and the instrumentation trace. -/
structure KernelState : Type where
  plugins : List String
  extra : List PItem
  hooks : List IHook
  commands : List (String × ICommand)
  platforms : List (String × IPlatform)
  initialConfig : Val
  paths : Val
  trace : List Ev

/-- The hook chain registered under a name (`this.hooks.get(name) || []`). -/
def chainHooks (s : KernelState) (name : String) : List IHook :=
  s.hooks.filter (fun h => h.name = name)

/-- Run an ordered tap list against the kernel state:
`waterfall.promise(initialVal)` with the trace threaded through. -/
def runOrdered (s : KernelState) (name : String) (initialVal opts : Val)
    (taps : List Tap) : Except (Err × KernelState) (Val × KernelState) :=
  match runTaps name opts taps initialVal [] s.trace with
  | .error (e, tr) => .error (e, { s with trace := tr })
  | .ok (v, _, tr) => .ok (v, { s with trace := tr })

/-- The argument of `applyPlugins`: a bare string, or an object
`{name, initialVal?, opts?}` (missing fields are `undefined`; the
`name` field may be any value and is validated). -/
inductive ApplyArgs : Type where
  | str : String → ApplyArgs
  | obj : Val → Val → Val → ApplyArgs

/-- `Kernel.applyPlugins`: extract `name`/`initialVal`/`opts`, reject a
non-string name, look up the chain, tap every hook in registration
order and run the waterfall on `initialVal`. -/
def applyPluginsM (s : KernelState) (args : ApplyArgs) :
    Except (Err × KernelState) (Val × KernelState) :=
  match args with
  | .str n => runOrdered s n Val.undefined Val.undefined (orderTaps (chainHooks s n))
  | .obj nameV initialVal opts =>
      match nameV with
      | .str n => runOrdered s n initialVal opts (orderTaps (chainHooks s n))
      | _ => .error (.badName, s)

/-- The hook entries a setup function adds to the kernel's hooks map:
its explicit `ctx.tap` registrations (owner id recorded as `plugin`),
followed by one hook per registered command under the command's name
(modelled from the spec: command registration lives in the external
`Plugin` context class; §2/§4.5/glossary specify that a command is
"dispatched through a hook chain", so `registerCommand(name, handler)`
stores the command and registers its handler on the chain named after
the command, with default stage and no `before` constraint). -/
def setupHookEntries (pid : String) (hds : List HookDecl)
    (cds : List ICommand) : List IHook :=
  hds.map (fun d => { name := d.name, plugin := pid, stage := d.stage,
                      before := d.before, h := d.h })
    ++ cds.map (fun c => { name := c.name, plugin := pid, stage := 0,
                           before := [], h := c.h })

/-- Invoking an item's setup function `apply()(pluginCtx, opts)`:
records the invocation in the trace and performs the registrations the
setup carries out through its plugin context (hooks, commands,
platforms; command and platform maps use `Map.set` overwrite
semantics).  The declarations it returns are read by the caller. -/
def runSetup (p : PItem) (s : KernelState) : KernelState :=
  { s with
    trace := s.trace ++ [Ev.setup p.id]
    hooks := s.hooks ++ setupHookEntries p.id p.hookDecls p.cmdDecls
    commands := p.cmdDecls.foldl (fun m c => alistSet m c.name c) s.commands
    platforms := p.platDecls.foldl (fun m pl => alistSet m pl.name pl) s.platforms }

/-- `Kernel.registerPlugin`: throws `插件 ... 已被注册` when the id is
already in the plugins map, else records the plugin. -/
def registerPlugin (id : String) (s : KernelState) :
    Except (Err × KernelState) KernelState :=
  if id ∈ s.plugins then .error (.dup id, s)
  else .ok { s with plugins := s.plugins ++ [id] }

mutual

/-- `Kernel.initPreset`: invoke the preset's setup function first, then
register the preset; presets the setup returned are expanded
immediately and recursively; plugins it returned are pushed onto
`extraPlugins`. -/
def initPreset : PItem → KernelState → Except (Err × KernelState) KernelState
  | PItem.mk pid presets plugins hds cds pds, s =>
      let s1 := runSetup (PItem.mk pid presets plugins hds cds pds) s
      match registerPlugin pid s1 with
      | .error es => .error es
      | .ok s2 =>
          match initPresetList presets s2 with
          | .error es => .error es
          | .ok s3 => .ok { s3 with extra := s3.extra ++ plugins }

/-- The preset queue drained one item at a time
(`while (allPresets.length) initPreset(allPresets.shift())`). -/
def initPresetList : List PItem → KernelState → Except (Err × KernelState) KernelState
  | [], s => .ok s
  | p :: ps, s =>
      match initPreset p s with
      | .error es => .error es
      | .ok s1 => initPresetList ps s1

end

/-- `Kernel.initPlugin`: register the plugin first, then invoke its
setup function; its return value is discarded. -/
def initPlugin (p : PItem) (s : KernelState) :
    Except (Err × KernelState) KernelState :=
  match registerPlugin p.id s with
  | .error es => .error es
  | .ok s1 => .ok (runSetup p s1)

/-- The plugin queue drained one item at a time. -/
def initPluginList : List PItem → KernelState → Except (Err × KernelState) KernelState
  | [], s => .ok s
  | p :: ps, s =>
      match initPlugin p s with
      | .error es => .error es
      | .ok s1 => initPluginList ps s1

/-- `Kernel.resolvePresets` (module resolution by
`resolvePresetsOrPlugins` is external and the items arrive resolved). -/
def resolvePresets (presets : List PItem) (s : KernelState) :
    Except (Err × KernelState) KernelState :=
  initPresetList presets s

/-- `Kernel.resolvePlugins`: snapshot `[...extraPlugins, ...plugins]`,
drain it, then reset `extraPlugins` to empty. -/
def resolvePlugins (plugins : List PItem) (s : KernelState) :
    Except (Err × KernelState) KernelState :=
  match initPluginList (s.extra ++ plugins) s with
  | .error es => .error es
  | .ok s1 => .ok { s1 with extra := [] }

/-- The kernel's construction-time inputs and its external
collaborators: `appPath`, the external `Config` object's `configPath`
and initial configuration value, `Config.getConfigWithNamed`, and the
caller-supplied preset/plugin declarations.  Configuration-declared
presets/plugins (merged by `mergePlugins` with the caller's) are
modelled as absent: the configuration file loader is external, so the
lists below stand for the already-merged queues. -/
structure Kernel : Type where
  appPath : String
  configPath : String
  configInitial : Val
  getConfigWithNamed : String → String → Val
  optsPresets : List PItem
  optsPlugins : List PItem

/-- The state of a freshly constructed kernel: empty maps, nothing
resolved (`createBabelRegister` is an external side effect). -/
def freshState : KernelState :=
  { plugins := [], extra := [], hooks := [], commands := [], platforms := []
    initialConfig := Val.undefined, paths := Val.undefined, trace := [] }

/-- `Kernel.initPresetsAndPlugins`: reset the plugins map and the extra
queue, then resolve presets and plugins. -/
def initPresetsAndPlugins (k : Kernel) (s : KernelState) :
    Except (Err × KernelState) KernelState :=
  let s0 := { s with plugins := [], extra := [] }
  match resolvePresets k.optsPresets s0 with
  | .error es => .error es
  | .ok s1 => resolvePlugins k.optsPlugins s1

/-- `Kernel.initConfig`: build the external `Config`, then run the
`modifyConfig` chain over its initial configuration; the result becomes
`this.initialConfig`. -/
def Kernel.initConfig (k : Kernel) (s : KernelState) :
    Except (Err × KernelState) KernelState :=
  match applyPluginsM s (ApplyArgs.obj (Val.str "modifyConfig") k.configInitial Val.undefined) with
  | .error es => .error es
  | .ok (v, s1) => .ok { s1 with initialConfig := v }

/-- `Kernel.initPaths`: seed the path set (the `sourceRoot`/`outputRoot`
reads on a non-object `initialConfig` yield `undefined` and the `as
string` joins then throw a TypeError, as `path.join` does), run the
`modifyPaths` chain, and store the result as `this.paths`. -/
def Kernel.initPaths (k : Kernel) (s : KernelState) :
    Except (Err × KernelState) KernelState :=
  match getField s.initialConfig "sourceRoot" with
  | .error e => .error (e, s)
  | .ok srv =>
  match asString srv with
  | .error e => .error (e, s)
  | .ok sr =>
  match getField s.initialConfig "outputRoot" with
  | .error e => .error (e, s)
  | .ok orv =>
  match asString orv with
  | .error e => .error (e, s)
  | .ok outr =>
  match applyPluginsM s (ApplyArgs.obj (Val.str "modifyPaths")
      (Val.obj [("appPath", Val.str k.appPath),
                ("configPath", Val.str k.configPath),
                ("sourcePath", Val.str (pathJoin k.appPath sr)),
                ("outputPath", Val.str (pathJoin k.appPath outr))])
      Val.undefined) with
  | .error es => .error es
  | .ok (v, s1) => .ok { s1 with paths := v }

/-- `Kernel.init`: config stage, path stage, preset/plugin resolution,
then the `onReady` chain. -/
def Kernel.init (k : Kernel) (s : KernelState) :
    Except (Err × KernelState) KernelState :=
  match k.initConfig s with
  | .error es => .error es
  | .ok s1 =>
  match k.initPaths s1 with
  | .error es => .error es
  | .ok s2 =>
  match initPresetsAndPlugins k s2 with
  | .error es => .error es
  | .ok s3 =>
  match applyPluginsM s3 (ApplyArgs.str "onReady") with
  | .error es => .error es
  | .ok (_, s4) => .ok s4

/-- The part of `Kernel.run` before the command dispatch checks:
`await this.init()` followed by `await this.applyPlugins('onStart')`. -/
def Kernel.startUp (k : Kernel) (s : KernelState) :
    Except (Err × KernelState) KernelState :=
  match k.init s with
  | .error es => .error es
  | .ok s1 =>
  match applyPluginsM s1 (ApplyArgs.str "onStart") with
  | .error es => .error es
  | .ok (_, s2) => .ok s2

/-- `Kernel.runWithPlatform`: throws `不存在编译平台 ...` when the
platform is not registered (a non-string key is never in the map), else
returns the platform's named configuration from the external `Config`. -/
def Kernel.runWithPlatform (k : Kernel) (s : KernelState) (platform : Val) :
    Except Err Val :=
  match platform with
  | .str p =>
      match alistGet? s.platforms p with
      | none => .error (.noPlatform platform)
      | some pl => .ok (k.getConfigWithNamed p pl.useConfigName)
  | _ => .error (.noPlatform platform)

/-- Does `this.commands.has(name)` hold?  Command keys are strings, so
any non-string name misses. -/
def commandsHas (s : KernelState) (nameV : Val) : Bool :=
  match nameV with
  | .str n => (alistGet? s.commands n).isSome
  | _ => false

/-- The tail of `Kernel.run` after `onStart`: the command-existence
check, the unconditional `opts.platform` read, the platform resolution
writing `opts.config`, and the dispatch of the command's chain. -/
def Kernel.dispatch (k : Kernel) (nameV opts : Val) (s : KernelState) :
    Except (Err × KernelState) (Val × KernelState) :=
  if commandsHas s nameV then
    match getField opts "platform" with
    | .error e => .error (e, s)
    | .ok pv =>
        if truthy pv then
          match k.runWithPlatform s pv with
          | .error e => .error (e, s)
          | .ok cfg =>
              applyPluginsM s (ApplyArgs.obj nameV Val.undefined (setField opts "config" cfg))
        else applyPluginsM s (ApplyArgs.obj nameV Val.undefined opts)
  else .error (.noCommand nameV, s)

/-- The argument of `Kernel.run`: a bare string, or `{name, opts?}`. -/
inductive RunArgs : Type where
  | str : String → RunArgs
  | obj : Val → Val → RunArgs

/-- `Kernel.run`: extract `name`/`opts` (both `undefined` when absent),
start up, then dispatch. -/
def Kernel.run (k : Kernel) (s : KernelState) (args : RunArgs) :
    Except (Err × KernelState) (Val × KernelState) :=
  match args with
  | .str n =>
      match k.startUp s with
      | .error es => .error es
      | .ok s1 => k.dispatch (Val.str n) Val.undefined s1
  | .obj nameV opts =>
      match k.startUp s with
      | .error es => .error es
      | .ok s1 => k.dispatch nameV opts s1

/-
Verification-level definitions: specification relations the theorems
compare the code against, projections used to state trace properties,
and the concrete kernels/handlers used by witnesses and
counterexamples.
-/

/-- Append one handler result to a running accumulator value.  The
spec's accumulator semantics presumes a collection accumulator; for a
non-collection the append is not specified and is modelled by starting
a fresh collection. -/
def vappend : Val → Val → Val
  | .arr xs, r => .arr (xs ++ [r])
  | _, r => .arr [r]

/-- Modelled from the spec: the execution semantics claimed for
`applyPlugins` (§4.4) — "the runner maintains a running results
accumulator (initialized to `initialValue` ...).  Each hook handler is
invoked with `(accumulator, options)`; its return value ... is appended
to the accumulator, which is passed to the next handler", the final
resolved value being the accumulator. -/
def specWaterfallRun (opts : Val) : List Tap → Val → Except Err Val
  | [], acc => .ok acc
  | t :: ts, acc =>
      match t.h.fn acc opts with
      | .error e => .error e
      | .ok r => specWaterfallRun opts ts (vappend acc r)

/-- The corrected waterfall semantics, stated independently of the
runner: `Waterfall o arg acc ts v res` holds when running the taps `ts`
sequentially — the next handler invoked with `(arg, o)`, its result
appended to the accumulator `acc`, and the grown accumulator (as an
array) passed on — ends with final value `v` and final accumulator
`res`. -/
inductive Waterfall (o : Val) : Val → List Val → List Tap → Val → List Val → Prop where
  | nil (arg : Val) (acc : List Val) : Waterfall o arg acc [] arg acc
  | step (t : Tap) (ts : List Tap) (arg : Val) (acc : List Val) (r v : Val)
      (res : List Val) :
      t.h.fn arg o = .ok r →
      Waterfall o (Val.arr (acc ++ [r])) (acc ++ [r]) ts v res →
      Waterfall o arg acc (t :: ts) v res

/-- Determinism of a state transformer with respect to the
registered-plugins map and the extra queue: from two starting states
agreeing on `plugins` and `extra`, two successful runs agree on the
resulting `plugins` and `extra` and append one common suffix to their
respective hooks maps. -/
def SimOk (f : KernelState → Except (Err × KernelState) KernelState) : Prop :=
  ∀ s t s' t', s.plugins = t.plugins → s.extra = t.extra →
    f s = .ok s' → f t = .ok t' →
    s'.plugins = t'.plugins ∧ s'.extra = t'.extra ∧
    ∃ δ, s'.hooks = s.hooks ++ δ ∧ t'.hooks = t.hooks ++ δ

/-- The trace of a lifecycle-stage outcome, whether it succeeded or
threw. -/
def exceptTrace : Except (Err × KernelState) KernelState → List Ev
  | .ok s => s.trace
  | .error (_, s) => s.trace

/-- The trace of an `applyPlugins`/`run` outcome. -/
def exceptTraceV : Except (Err × KernelState) (Val × KernelState) → List Ev
  | .ok (_, s) => s.trace
  | .error (_, s) => s.trace

/-- The trace of a raw waterfall outcome. -/
def rtTrace : Except (Err × List Ev) (Val × List Val × List Ev) → List Ev
  | .ok (_, _, t) => t
  | .error (_, t) => t

/-- The hook-chain name an `applyPlugins` argument resolves to, when
its name is a string. -/
def applyName : ApplyArgs → Option String
  | .str n => some n
  | .obj (Val.str n) _ _ => some n
  | .obj _ _ _ => none

/-- The four hook chains `run` emits before reaching the command
dispatch: `modifyConfig` and `modifyPaths` during `init`'s config and
path stages, `onReady` at the end of `init`, and `onStart` at the top
of `run`. -/
def lifecycleChains : List String :=
  ["modifyConfig", "modifyPaths", "onReady", "onStart"]

/-- A handler returning the constant number `n`, with trace id `h{n}`. -/
def hconst (n : Int) : Handler :=
  { hid := "h" ++ toString n, fn := fun _ _ => .ok (Val.num n) }

/-- A handler returning its argument unchanged. -/
def hid0 : Handler :=
  { hid := "hid0", fn := fun a _ => .ok a }

/-- A handler that always throws `boom`. -/
def hboom : Handler :=
  { hid := "hboom", fn := fun _ _ => .error (.user (Val.str "boom")) }

/-- A plugin/preset item with the given id and no effects. -/
def leafItem (i : String) : PItem := PItem.mk i [] [] [] [] []

/-- An initial configuration carrying the two root names `initPaths`
reads. -/
def rootsConfig : Val :=
  Val.obj [("sourceRoot", Val.str "src"), ("outputRoot", Val.str "dist")]

/-- C1 witness data: two presets and a plugin, then the same shapes on
the plugin side. -/
def c1dup : PItem := leafItem "a"

/-- C1 witness data: the state after resolving the first `"a"` item as
a preset (one setup, one registration), which is also the state after
resolving it as a plugin. -/
def c1mid : KernelState :=
  { freshState with plugins := ["a"], trace := [Ev.setup "a"] }

/-- C2 data: a kernel whose single plugin taps hook chain `"x"` once. -/
def c2kernel : Kernel :=
  { appPath := "app", configPath := "cfg", configInitial := rootsConfig,
    getConfigWithNamed := fun _ _ => Val.undefined,
    optsPresets := [],
    optsPlugins := [PItem.mk "p" [] [] [⟨"x", 0, [], hconst 1⟩] [] []] }

/-- C2 data: the state after the first `init`. -/
def c2s1 : KernelState :=
  (c2kernel.init freshState).toOption.getD freshState

/-- C2 data: the state after a second `init`. -/
def c2s2 : KernelState :=
  (c2kernel.init c2s1).toOption.getD freshState

/-- C3 data: a state whose `"wf"` chain has one handler returning `7`. -/
def c3state : KernelState :=
  { freshState with hooks :=
      [{ name := "wf", plugin := "p", stage := 0, before := [], h := hconst 7 }] }

/-- C5 data: a state whose `"c"` chain has handlers at stages 0, 1, 0. -/
def c5state : KernelState :=
  { freshState with hooks :=
      [ { name := "c", plugin := "p1", stage := 0, before := [], h := hconst 1 },
        { name := "c", plugin := "p2", stage := 1, before := [], h := hconst 2 },
        { name := "c", plugin := "p3", stage := 0, before := [], h := hconst 3 } ] }

/-- C6 data: a state whose `"e"` chain is an ok handler, a throwing
handler, then another ok handler, all at stage 0. -/
def c6state : KernelState :=
  { freshState with hooks :=
      [ { name := "e", plugin := "p1", stage := 0, before := [], h := hconst 1 },
        { name := "e", plugin := "p2", stage := 0, before := [], h := hboom },
        { name := "e", plugin := "p3", stage := 0, before := [], h := hconst 3 } ] }

/-- C7 data: a kernel whose single plugin taps the `onStart` chain and
registers no command; the platform registry stays empty. -/
def c7kernel : Kernel :=
  { appPath := "app", configPath := "cfg", configInitial := rootsConfig,
    getConfigWithNamed := fun _ _ => Val.undefined,
    optsPresets := [],
    optsPlugins := [PItem.mk "p" [] [] [⟨"onStart", 0, [], ⟨"h7", fun a _ => .ok a⟩⟩] [] []] }

/-- C7 data: the requested options naming an unregistered platform. -/
def c7opts : Val := Val.obj [("platform", Val.str "nope")]

/-- C7 data: the error state of the failing run. -/
def c7err : KernelState :=
  match c7kernel.run freshState (RunArgs.obj (Val.str "onStart") c7opts) with
  | .ok (_, s) => s
  | .error (_, s) => s

/-- C7/C10 amended-claim witness data: a kernel with one plugin that
registers the command `build` and nothing else. -/
def cbKernel : Kernel :=
  { appPath := "app", configPath := "cfg", configInitial := rootsConfig,
    getConfigWithNamed := fun _ _ => Val.undefined,
    optsPresets := [],
    optsPlugins := [PItem.mk "p" [] [] [] [⟨"build", ⟨"b", fun a _ => .ok a⟩⟩] []] }

/-- C7/C10 amended-claim witness data: the state `cbKernel` reaches
after `init` and the `onStart` emission. -/
def cbAfterStart : KernelState :=
  (cbKernel.startUp freshState).toOption.getD freshState

/-- C8 data: the kernel for preset `P` declaring nested preset `Q` and
nested plugin `R`, with sibling preset `S` and top-level plugin `T`. -/
def c8kernel (pI qI sI rI tI : String) : Kernel :=
  { appPath := "", configPath := "", configInitial := Val.undefined,
    getConfigWithNamed := fun _ _ => Val.undefined,
    optsPresets := [PItem.mk pI [leafItem qI] [leafItem rI] [] [] [], leafItem sI],
    optsPlugins := [leafItem tI] }

/-- C9 witness data: a state with one pending extra plugin. -/
def c9start : KernelState := { freshState with extra := [leafItem "r"] }

/-- C9 witness data: the state after draining the queue. -/
def c9res : KernelState :=
  (resolvePlugins [leafItem "t"] c9start).toOption.getD freshState

/-- C10 data: a kernel whose single plugin taps the `onStart` chain and
also registers `onStart` itself as a command. -/
def c10kernel : Kernel :=
  { appPath := "app", configPath := "cfg", configInitial := rootsConfig,
    getConfigWithNamed := fun _ _ => Val.undefined,
    optsPresets := [],
    optsPlugins := [PItem.mk "p" [] []
      [⟨"onStart", 0, [], ⟨"h", fun a _ => .ok a⟩⟩]
      [⟨"onStart", ⟨"c", fun a _ => .ok a⟩⟩] []] }

/-- C10 data: the error state of the failing bare-string run. -/
def c10err : KernelState :=
  match c10kernel.run freshState (RunArgs.str "onStart") with
  | .ok (_, s) => s
  | .error (_, s) => s

/-- Sequencing of two fallible state transformers: run the first and,
unless it threw, the second — the shape of every multi-stage body in
the kernel. -/
def exSeq (f g : KernelState → Except (Err × KernelState) KernelState)
    (s : KernelState) : Except (Err × KernelState) KernelState :=
  match f s with
  | .error es => .error es
  | .ok s1 => g s1

/-- The error of a failed `run`/`applyPlugins` outcome, if any. -/
def runErr? : Except (Err × KernelState) (Val × KernelState) → Option Err
  | .error (e, _) => some e
  | .ok _ => none

/-
Theorems.
-/

/-- The waterfall runs an appended tap list by running the first part
and, on success, continuing with the second from where it stopped. -/
theorem runTaps_append (c : String) (o : Val) (ts1 ts2 : List Tap)
    (arg : Val) (acc : List Val) (tr : List Ev) :
    runTaps c o (ts1 ++ ts2) arg acc tr =
      match runTaps c o ts1 arg acc tr with
      | .error e => .error e
      | .ok (v, a, t) => runTaps c o ts2 v a t := by
  induction ts1 generalizing arg acc tr with
  | nil => simp [runTaps]
  | cons t ts ih =>
      simp only [List.cons_append, runTaps]
      cases t.h.fn arg o with
      | error e => simp
      | ok res => simp [ih]

/-- C4: a hook chain with zero registered handlers resolves to the
supplied initial value unchanged, with the state untouched. -/
theorem c4_identity (s : KernelState) (name : String) (v o : Val)
    (h : chainHooks s name = []) :
    applyPluginsM s (ApplyArgs.obj (Val.str name) v o) = .ok (v, s) := by
  simp [applyPluginsM, h, orderTaps, runOrdered, runTaps]

/-- C4 witness: the `modifyConfig` chain of a fresh kernel is empty and
`applyPlugins` hands back the seed value. -/
theorem c4_identity_witness :
    chainHooks freshState "modifyConfig" = [] ∧
    applyPluginsM freshState (ApplyArgs.obj (Val.str "modifyConfig") (Val.num 5) Val.undefined)
      = .ok (Val.num 5, freshState) :=
  ⟨rfl, c4_identity freshState "modifyConfig" (Val.num 5) Val.undefined rfl⟩

/-- C9: whenever `resolvePlugins` completes, the `extraPlugins` queue of
the resulting state is empty. -/
theorem c9_extra_drained (ps : List PItem) (s s' : KernelState)
    (h : resolvePlugins ps s = .ok s') : s'.extra = [] := by
  unfold resolvePlugins at h
  cases hm : initPluginList (s.extra ++ ps) s with
  | error es => rw [hm] at h; cases h
  | ok s1 =>
      rw [hm] at h
      injection h with h
      rw [← h]

/-- C9 witness: draining one queued preset-declared plugin and one
top-level plugin leaves the queue empty. -/
theorem c9_extra_drained_witness :
    resolvePlugins [leafItem "t"] c9start = .ok c9res ∧ c9res.extra = [] :=
  ⟨rfl, c9_extra_drained [leafItem "t"] c9start c9res rfl⟩

/-- C5: for a chain holding handlers `H1` (stage 0), `H2` (stage 1) and
`H3` (stage 0, registered after `H1`), none constrained by `before`,
tapping produces the execution order `H1, H3, H2` — ascending stage,
registration order within equal stage — and `applyPlugins` runs the
waterfall over exactly that order. -/
theorem c5_stage_order (s : KernelState) (name : String) (H1 H2 H3 : IHook)
    (v o : Val)
    (hc : chainHooks s name = [H1, H2, H3])
    (h1 : H1.stage = 0) (h2 : H2.stage = 1) (h3 : H3.stage = 0)
    (hb1 : H1.before = []) (hb2 : H2.before = []) (hb3 : H3.before = []) :
    orderTaps (chainHooks s name) = [mkTap H1, mkTap H3, mkTap H2] ∧
    applyPluginsM s (ApplyArgs.obj (Val.str name) v o)
      = runOrdered s name v o [mkTap H1, mkTap H3, mkTap H2] := by
  have hord : orderTaps (chainHooks s name) = [mkTap H1, mkTap H3, mkTap H2] := by
    rw [hc]
    simp [orderTaps, insertTap, insertAux, mkTap, h1, h2, h3, hb1, hb2, hb3]
  exact ⟨hord, by simp only [applyPluginsM, hord]⟩

/-- C5 witness: the concrete three-handler chain at stages 0, 1, 0 runs
its handlers in the order first, third, second, producing `[1, 3, 2]`. -/
theorem c5_stage_order_witness :
    (orderTaps (chainHooks c5state "c")
        = [mkTap { name := "c", plugin := "p1", stage := 0, before := [], h := hconst 1 },
           mkTap { name := "c", plugin := "p3", stage := 0, before := [], h := hconst 3 },
           mkTap { name := "c", plugin := "p2", stage := 1, before := [], h := hconst 2 }] ∧
      applyPluginsM c5state (ApplyArgs.obj (Val.str "c") (Val.num 0) Val.undefined)
        = runOrdered c5state "c" (Val.num 0) Val.undefined
            [mkTap { name := "c", plugin := "p1", stage := 0, before := [], h := hconst 1 },
             mkTap { name := "c", plugin := "p3", stage := 0, before := [], h := hconst 3 },
             mkTap { name := "c", plugin := "p2", stage := 1, before := [], h := hconst 2 }]) ∧
    applyPluginsM c5state (ApplyArgs.obj (Val.str "c") (Val.num 0) Val.undefined)
      = .ok (Val.arr [Val.num 1, Val.num 3, Val.num 2],
             { c5state with trace :=
                [Ev.hookRun "c" "h1", Ev.hookRun "c" "h3", Ev.hookRun "c" "h2"] }) :=
  ⟨c5_stage_order c5state "c" _ _ _ (Val.num 0) Val.undefined rfl rfl rfl rfl rfl rfl rfl, rfl⟩

/-- C6: when the prefix of an ordered chain succeeds and the next
handler always throws `e`, `applyPlugins` rejects with exactly `e`, the
trace ends at the throwing handler, and the handlers after it (the
arbitrary suffix `ts2`, absent from the conclusion) never execute. -/
theorem c6_error_aborts (s : KernelState) (name : String) (v o : Val)
    (ts1 : List Tap) (t : Tap) (ts2 : List Tap) (e : Err)
    (v1 : Val) (acc1 : List Val) (tr1 : List Ev)
    (hord : orderTaps (chainHooks s name) = ts1 ++ t :: ts2)
    (hpre : runTaps name o ts1 v [] s.trace = .ok (v1, acc1, tr1))
    (herr : ∀ a b, t.h.fn a b = .error e) :
    applyPluginsM s (ApplyArgs.obj (Val.str name) v o)
      = .error (e, { s with trace := tr1 ++ [Ev.hookRun name t.h.hid] }) := by
  simp only [applyPluginsM, runOrdered, hord, runTaps_append, hpre]
  simp [runTaps, herr]

/-- C6 witness: on the chain ok-handler, throwing handler, ok-handler,
the run rejects with the thrown error and the third handler leaves no
trace event. -/
theorem c6_error_aborts_witness :
    orderTaps (chainHooks c6state "e")
      = [mkTap { name := "e", plugin := "p1", stage := 0, before := [], h := hconst 1 }]
        ++ mkTap { name := "e", plugin := "p2", stage := 0, before := [], h := hboom }
        :: [mkTap { name := "e", plugin := "p3", stage := 0, before := [], h := hconst 3 }] ∧
    applyPluginsM c6state (ApplyArgs.obj (Val.str "e") (Val.num 0) Val.undefined)
      = .error (.user (Val.str "boom"),
          { c6state with trace := [Ev.hookRun "e" "h1", Ev.hookRun "e" "hboom"] }) :=
  ⟨rfl, c6_error_aborts c6state "e" (Val.num 0) Val.undefined
      [mkTap { name := "e", plugin := "p1", stage := 0, before := [], h := hconst 1 }]
      (mkTap { name := "e", plugin := "p2", stage := 0, before := [], h := hboom })
      [mkTap { name := "e", plugin := "p3", stage := 0, before := [], h := hconst 3 }]
      (.user (Val.str "boom"))
      (Val.arr [Val.num 1]) [Val.num 1] [Ev.hookRun "e" "h1"] rfl rfl (fun _ _ => rfl)⟩

/-- A successful waterfall run satisfies the corrected accumulator
semantics: the results list extends the starting accumulator by one
entry per tap, and whenever the incoming argument is the accumulator as
an array, so is the outgoing value. -/
theorem runTaps_waterfall (c : String) (o : Val) (ts : List Tap) :
    ∀ (arg : Val) (acc : List Val) (tr : List Ev) (v : Val) (res : List Val)
      (tr' : List Ev),
    runTaps c o ts arg acc tr = .ok (v, res, tr') →
    Waterfall o arg acc ts v res ∧ res.length = acc.length + ts.length ∧
      (arg = Val.arr acc → v = Val.arr res) := by
  induction ts with
  | nil =>
      intro arg acc tr v res tr' h
      simp only [runTaps, Except.ok.injEq, Prod.mk.injEq] at h
      obtain ⟨h1, h2, h3⟩ := h
      subst h1; subst h2
      exact ⟨Waterfall.nil arg acc, by simp, fun hx => hx⟩
  | cons t ts ih =>
      intro arg acc tr v res tr' h
      simp only [runTaps] at h
      cases hf : t.h.fn arg o with
      | error e => rw [hf] at h; cases h
      | ok r =>
          rw [hf] at h
          obtain ⟨w, hlen, hval⟩ := ih _ _ _ _ _ _ h
          refine ⟨Waterfall.step t ts arg acc r v res hf w, ?_, fun _ => hval rfl⟩
          rw [hlen]; simp [List.length_append]; omega

/-- C3 (amended): a successful `applyPlugins` over a chain realizes the
corrected waterfall semantics — the accumulator starts empty, the first
handler receives the initial value, each handler's result is appended,
one result per tap, and when the chain is non-empty the resolved value
is the array of all results (the initial value is not part of it). -/
theorem c3_amended_waterfall (s : KernelState) (name : String)
    (v o w : Val) (res : List Val) (tr' : List Ev)
    (h : runTaps name o (orderTaps (chainHooks s name)) v [] s.trace
          = .ok (w, res, tr')) :
    applyPluginsM s (ApplyArgs.obj (Val.str name) v o)
        = .ok (w, { s with trace := tr' }) ∧
    Waterfall o v [] (orderTaps (chainHooks s name)) w res ∧
    res.length = (orderTaps (chainHooks s name)).length ∧
    (orderTaps (chainHooks s name) ≠ [] → w = Val.arr res) := by
  have hw := runTaps_waterfall name o (orderTaps (chainHooks s name)) _ _ _ _ _ _ h
  refine ⟨by simp [applyPluginsM, runOrdered, h], hw.1, by simpa using hw.2.1, ?_⟩
  intro hne
  cases hts : orderTaps (chainHooks s name) with
  | nil => exact absurd hts hne
  | cons t ts =>
      rw [hts] at h
      simp only [runTaps] at h
      cases hf : t.h.fn v o with
      | error e => rw [hf] at h; cases h
      | ok r =>
          rw [hf] at h
          exact (runTaps_waterfall name o ts _ _ _ _ _ _ h).2.2 rfl

/-- C3 counterexample: with initial value `[99]` and one handler
returning `7`, the code resolves to `[7]`, while the claimed semantics
— accumulator initialized to the initial value, results appended to it
— yields `[99, 7]`; the two differ, so the claim as stated fails. -/
theorem c3_counterexample :
    applyPluginsM c3state (ApplyArgs.obj (Val.str "wf") (Val.arr [Val.num 99]) Val.undefined)
      = .ok (Val.arr [Val.num 7], { c3state with trace := [Ev.hookRun "wf" "h7"] }) ∧
    specWaterfallRun Val.undefined (orderTaps (chainHooks c3state "wf")) (Val.arr [Val.num 99])
      = .ok (Val.arr [Val.num 99, Val.num 7]) ∧
    Val.arr [Val.num 7] ≠ Val.arr [Val.num 99, Val.num 7] :=
  ⟨rfl, rfl, by simp⟩

/-- C3 witness: the corrected semantics at the concrete one-handler
chain — the result is `[7]`, of length one, and the chain being
non-empty forces the resolved value to be the results array. -/
theorem c3_amended_waterfall_witness :
    applyPluginsM c3state (ApplyArgs.obj (Val.str "wf") (Val.arr [Val.num 99]) Val.undefined)
        = .ok (Val.arr [Val.num 7], { c3state with trace := [Ev.hookRun "wf" "h7"] }) ∧
    Waterfall Val.undefined (Val.arr [Val.num 99]) [] (orderTaps (chainHooks c3state "wf"))
        (Val.arr [Val.num 7]) [Val.num 7] ∧
    [Val.num 7].length = (orderTaps (chainHooks c3state "wf")).length ∧
    (orderTaps (chainHooks c3state "wf") ≠ [] → Val.arr [Val.num 7] = Val.arr [Val.num 7]) :=
  c3_amended_waterfall c3state "wf" (Val.arr [Val.num 99]) Val.undefined
    (Val.arr [Val.num 7]) [Val.num 7] [Ev.hookRun "wf" "h7"] rfl

/-- Draining an appended preset queue drains the first part and, on
success, continues with the second. -/
theorem initPresetList_append (ps qs : List PItem) (s : KernelState) :
    initPresetList (ps ++ qs) s =
      match initPresetList ps s with
      | .error es => .error es
      | .ok s1 => initPresetList qs s1 := by
  induction ps generalizing s with
  | nil => simp [initPresetList]
  | cons p ps ih =>
      simp only [List.cons_append, initPresetList]
      cases initPreset p s with
      | error es => simp
      | ok s1 => simp [ih]

/-- Draining an appended plugin queue drains the first part and, on
success, continues with the second. -/
theorem initPluginList_append (ps qs : List PItem) (s : KernelState) :
    initPluginList (ps ++ qs) s =
      match initPluginList ps s with
      | .error es => .error es
      | .ok s1 => initPluginList qs s1 := by
  induction ps generalizing s with
  | nil => simp [initPluginList]
  | cons p ps ih =>
      simp only [List.cons_append, initPluginList]
      cases initPlugin p s with
      | error es => simp
      | ok s1 => simp [ih]

/-- C1 (amended): resolving a declaration whose id is already
registered fails with the duplicate-registration error before the
duplicate is registered and before any later-declared item (`ps2`,
`qs2`, absent from the conclusions) initializes; a duplicate preset's
own setup function executes immediately before the failure (presets
run their setup before registering), while a duplicate plugin's setup
never executes (the error state is the prefix state unchanged). -/
theorem c1_amended_ordering (ps1 : List PItem) (p : PItem) (ps2 : List PItem)
    (qs1 : List PItem) (q : PItem) (qs2 : List PItem)
    (s u s' u' : KernelState) :
    (initPresetList ps1 s = .ok s' → p.id ∈ s'.plugins →
      initPresetList (ps1 ++ p :: ps2) s = .error (.dup p.id, runSetup p s')) ∧
    (initPluginList qs1 u = .ok u' → q.id ∈ u'.plugins →
      initPluginList (qs1 ++ q :: qs2) u = .error (.dup q.id, u')) := by
  constructor
  · intro h hm
    rw [initPresetList_append, h]
    cases p with
    | mk pid pre plu hds cds pds =>
        have hm' : pid ∈ (runSetup (PItem.mk pid pre plu hds cds pds) s').plugins := by
          simpa [runSetup] using hm
        simp [initPresetList, initPreset, registerPlugin, hm', PItem.id]
  · intro h hm
    rw [initPluginList_append, h]
    simp [initPluginList, initPlugin, registerPlugin, hm]

/-- C1 counterexample: two presets resolving to the same id `"a"` — the
second item's setup function executes (a second `setup "a"` event is in
the error state's trace) before resolution fails, so resolution does
not fail before the second item's setup runs. -/
theorem c1_counterexample :
    initPresetList [c1dup, c1dup] freshState
      = .error (.dup "a", runSetup c1dup c1mid) ∧
    (runSetup c1dup c1mid).trace = [Ev.setup "a", Ev.setup "a"] :=
  ⟨rfl, rfl⟩

/-- C1 witness: the amended ordering at the concrete duplicate id
`"a"`, on both the preset and the plugin side, with a later item `"b"`
that never initializes. -/
theorem c1_amended_ordering_witness :
    initPresetList ([c1dup] ++ c1dup :: [leafItem "b"]) freshState
      = .error (.dup c1dup.id, runSetup c1dup c1mid) ∧
    initPluginList ([c1dup] ++ c1dup :: [leafItem "b"]) freshState
      = .error (.dup c1dup.id, c1mid) :=
  ⟨(c1_amended_ordering [c1dup] c1dup [leafItem "b"] [c1dup] c1dup [leafItem "b"]
      freshState freshState c1mid c1mid).1 rfl (by decide),
   (c1_amended_ordering [c1dup] c1dup [leafItem "b"] [c1dup] c1dup [leafItem "b"]
      freshState freshState c1mid c1mid).2 rfl (by decide)⟩

/-- C8: for preset `P` declaring nested preset `Q` and nested plugin
`R`, sibling preset `S` and top-level plugin `T` (all ids distinct),
resolution succeeds and the setup order is `P, Q, S, R, T`: `Q`
initializes depth-first during `P`'s own turn, before the sibling
preset, while `R` is deferred past all presets but initializes before
the top-level plugin. -/
theorem c8_nested_order (pI qI sI rI tI : String)
    (h : ([pI, qI, sI, rI, tI] : List String).Nodup) :
    initPresetsAndPlugins (c8kernel pI qI sI rI tI) freshState
      = .ok { freshState with
          plugins := [pI, qI, sI, rI, tI]
          trace := [Ev.setup pI, Ev.setup qI, Ev.setup sI, Ev.setup rI, Ev.setup tI] } := by
  simp [List.nodup_cons, List.mem_cons, not_or] at h
  obtain ⟨⟨hpq, hps, hpr, hpt⟩, ⟨hqs, hqr, hqt⟩, ⟨hsr, hst⟩, hrt⟩ := h
  simp [initPresetsAndPlugins, resolvePresets, resolvePlugins, c8kernel,
    initPresetList, initPreset, initPlugin, initPluginList, registerPlugin,
    runSetup, setupHookEntries, leafItem, PItem.id, PItem.presets,
    PItem.plugins, PItem.hookDecls, PItem.cmdDecls, PItem.platDecls,
    freshState,
    Ne.symm hpq, Ne.symm hps, Ne.symm hpr, Ne.symm hpt,
    Ne.symm hqs, Ne.symm hqr, Ne.symm hqt, Ne.symm hsr, Ne.symm hst, Ne.symm hrt]

/-- C8 witness: the order at the concrete ids `p, q, s, r, t`. -/
theorem c8_nested_order_witness :
    initPresetsAndPlugins (c8kernel "p" "q" "s" "r" "t") freshState
      = .ok { freshState with
          plugins := ["p", "q", "s", "r", "t"]
          trace := [Ev.setup "p", Ev.setup "q", Ev.setup "s", Ev.setup "r", Ev.setup "t"] } :=
  c8_nested_order "p" "q" "s" "r" "t" (by decide)

/-- Determinism transfer along a pointwise-equal transformer. -/
theorem simOk_congr (f g : KernelState → Except (Err × KernelState) KernelState)
    (h : ∀ s, f s = g s) (hg : SimOk g) : SimOk f := by
  intro s t s' t' hp he hfs hft
  rw [h] at hfs
  rw [h] at hft
  exact hg s t s' t' hp he hfs hft

/-- Determinism composes across sequencing. -/
theorem simOk_seq (f g : KernelState → Except (Err × KernelState) KernelState)
    (hf : SimOk f) (hg : SimOk g) : SimOk (exSeq f g) := by
  intro s t s' t' hp he hfs hft
  unfold exSeq at hfs hft
  cases h1 : f s with
  | error es => rw [h1] at hfs; cases hfs
  | ok s1 =>
      rw [h1] at hfs
      cases h2 : f t with
      | error es => rw [h2] at hft; cases hft
      | ok t1 =>
          rw [h2] at hft
          obtain ⟨hp1, he1, δ1, hs1, ht1⟩ := hf s t s1 t1 hp he h1 h2
          obtain ⟨hp2, he2, δ2, hs2, ht2⟩ := hg s1 t1 s' t' hp1 he1 hfs hft
          exact ⟨hp2, he2, δ1 ++ δ2,
            by rw [hs2, hs1, List.append_assoc],
            by rw [ht2, ht1, List.append_assoc]⟩

/-- Invoking a setup function is deterministic: it keeps `plugins` and
`extra` and appends the item's fixed hook entries. -/
theorem simOk_runSetup (p : PItem) : SimOk (fun s => .ok (runSetup p s)) := by
  intro s t s' t' hp he hfs hft
  injection hfs with hfs
  injection hft with hft
  subst hfs
  subst hft
  exact ⟨hp, he, setupHookEntries p.id p.hookDecls p.cmdDecls, rfl, rfl⟩

/-- Plugin registration is deterministic in the plugins map. -/
theorem simOk_register (pid : String) : SimOk (registerPlugin pid) := by
  intro s t s' t' hp he hfs hft
  unfold registerPlugin at hfs hft
  by_cases hm : pid ∈ s.plugins
  · rw [if_pos hm] at hfs; cases hfs
  · rw [if_neg hm] at hfs
    rw [hp] at hm
    rw [if_neg hm] at hft
    injection hfs with hfs
    injection hft with hft
    subst hfs
    subst hft
    exact ⟨by simp [hp], he, [], by simp, by simp⟩

/-- Appending a fixed list to the extra queue is deterministic. -/
theorem simOk_extraAppend (plu : List PItem) :
    SimOk (fun s => .ok { s with extra := s.extra ++ plu }) := by
  intro s t s' t' hp he hfs hft
  injection hfs with hfs
  injection hft with hft
  subst hfs
  subst hft
  exact ⟨hp, by simp [he], [], by simp, by simp⟩

mutual

/-- Preset expansion is deterministic with respect to the plugins map
and extra queue, and appends a hooks suffix fixed by the item. -/
theorem simOk_initPreset : ∀ (p : PItem), SimOk (initPreset p)
  | PItem.mk pid pre plu hds cds pds =>
      simOk_congr (initPreset (PItem.mk pid pre plu hds cds pds))
        (exSeq (fun s => .ok (runSetup (PItem.mk pid pre plu hds cds pds) s))
          (exSeq (registerPlugin pid)
            (exSeq (initPresetList pre)
              (fun s => .ok { s with extra := s.extra ++ plu }))))
        (fun _ => rfl)
        (simOk_seq _ _ (simOk_runSetup (PItem.mk pid pre plu hds cds pds))
          (simOk_seq _ _ (simOk_register pid)
            (simOk_seq _ _ (simOk_initPresetList pre) (simOk_extraAppend plu))))

/-- Draining a preset queue is deterministic. -/
theorem simOk_initPresetList : ∀ (ps : List PItem), SimOk (initPresetList ps)
  | [] => by
      intro s t s' t' hp he hfs hft
      injection hfs with hfs
      injection hft with hft
      subst hfs
      subst hft
      exact ⟨hp, he, [], by simp, by simp⟩
  | p :: ps =>
      simOk_congr (initPresetList (p :: ps))
        (exSeq (initPreset p) (initPresetList ps)) (fun _ => rfl)
        (simOk_seq _ _ (simOk_initPreset p) (simOk_initPresetList ps))

end

/-- Plugin initialization is deterministic. -/
theorem simOk_initPlugin (p : PItem) : SimOk (initPlugin p) :=
  simOk_congr (initPlugin p)
    (exSeq (registerPlugin p.id) (fun s => .ok (runSetup p s)))
    (fun _ => rfl)
    (simOk_seq _ _ (simOk_register p.id) (simOk_runSetup p))

/-- Draining a plugin queue is deterministic. -/
theorem simOk_initPluginList : ∀ (ps : List PItem), SimOk (initPluginList ps)
  | [] => by
      intro s t s' t' hp he hfs hft
      injection hfs with hfs
      injection hft with hft
      subst hfs
      subst hft
      exact ⟨hp, he, [], by simp, by simp⟩
  | p :: ps =>
      simOk_congr (initPluginList (p :: ps))
        (exSeq (initPlugin p) (initPluginList ps)) (fun _ => rfl)
        (simOk_seq _ _ (simOk_initPlugin p) (simOk_initPluginList ps))

/-- `resolvePlugins` is deterministic: the drained queue is determined
by the shared extra queue and the fixed top-level list. -/
theorem simOk_resolvePlugins (ps : List PItem) : SimOk (resolvePlugins ps) := by
  intro s t s' t' hp he hfs hft
  unfold resolvePlugins at hfs hft
  cases h1 : initPluginList (s.extra ++ ps) s with
  | error es => rw [h1] at hfs; cases hfs
  | ok s1 =>
      rw [h1] at hfs
      cases h2 : initPluginList (t.extra ++ ps) t with
      | error es => rw [h2] at hft; cases hft
      | ok t1 =>
          rw [h2] at hft
          rw [← he] at h2
          obtain ⟨hp1, he1, δ, hs1, ht1⟩ :=
            simOk_initPluginList (s.extra ++ ps) s t s1 t1 hp he h1 h2
          injection hfs with hfs
          injection hft with hft
          subst hfs
          subst hft
          exact ⟨hp1, rfl, δ, hs1, ht1⟩

/-- `initPresetsAndPlugins` is deterministic from any two starting
states: it resets `plugins`/`extra` itself, so two successful runs
register the same plugins, drain the queue, and append one common
suffix to their hooks maps. -/
theorem initPresetsAndPlugins_det (k : Kernel) (s t s' t' : KernelState)
    (hs : initPresetsAndPlugins k s = .ok s')
    (ht : initPresetsAndPlugins k t = .ok t') :
    s'.plugins = t'.plugins ∧ s'.extra = t'.extra ∧
    ∃ δ, s'.hooks = s.hooks ++ δ ∧ t'.hooks = t.hooks ++ δ := by
  have hcomp : SimOk (exSeq (resolvePresets k.optsPresets) (resolvePlugins k.optsPlugins)) :=
    simOk_seq _ _
      (simOk_congr (resolvePresets k.optsPresets) (initPresetList k.optsPresets)
        (fun _ => rfl) (simOk_initPresetList k.optsPresets))
      (simOk_resolvePlugins k.optsPlugins)
  have hs' : exSeq (resolvePresets k.optsPresets) (resolvePlugins k.optsPlugins)
      { s with plugins := [], extra := [] } = .ok s' := hs
  have ht' : exSeq (resolvePresets k.optsPresets) (resolvePlugins k.optsPlugins)
      { t with plugins := [], extra := [] } = .ok t' := ht
  obtain ⟨hp, he, δ, h1, h2⟩ :=
    hcomp { s with plugins := [], extra := [] } { t with plugins := [], extra := [] }
      s' t' rfl rfl hs' ht'
  exact ⟨hp, he, δ, h1, h2⟩

/-- A successful waterfall run only advances the trace; every other
kernel-state component is untouched. -/
theorem runOrdered_ok_fields (s : KernelState) (name : String) (v o : Val)
    (taps : List Tap) (w : Val) (s' : KernelState)
    (h : runOrdered s name v o taps = .ok (w, s')) :
    s'.plugins = s.plugins ∧ s'.extra = s.extra ∧ s'.hooks = s.hooks ∧
    s'.commands = s.commands ∧ s'.platforms = s.platforms ∧
    s'.initialConfig = s.initialConfig ∧ s'.paths = s.paths := by
  unfold runOrdered at h
  cases hr : runTaps name o taps v [] s.trace with
  | error e =>
      obtain ⟨e1, tr1⟩ := e
      rw [hr] at h
      cases h
  | ok r =>
      obtain ⟨v0, a0, tr0⟩ := r
      rw [hr] at h
      injection h with h
      injection h with hv hs
      subst hs
      exact ⟨rfl, rfl, rfl, rfl, rfl, rfl, rfl⟩

/-- A successful `applyPlugins` only advances the trace. -/
theorem applyPluginsM_ok_fields (s : KernelState) (a : ApplyArgs) (v : Val)
    (s' : KernelState) (h : applyPluginsM s a = .ok (v, s')) :
    s'.plugins = s.plugins ∧ s'.extra = s.extra ∧ s'.hooks = s.hooks ∧
    s'.commands = s.commands ∧ s'.platforms = s.platforms ∧
    s'.initialConfig = s.initialConfig ∧ s'.paths = s.paths := by
  cases a with
  | str n => exact runOrdered_ok_fields _ _ _ _ _ _ _ h
  | obj nameV iv o =>
      cases nameV with
      | str n => exact runOrdered_ok_fields _ _ _ _ _ _ _ h
      | undefined => cases h
      | num m => cases h
      | arr xs => cases h
      | obj fs => cases h

/-- The config stage keeps the plugins map, the extra queue and the
hooks map. -/
theorem initConfig_ok_fields (k : Kernel) (s s' : KernelState)
    (h : k.initConfig s = .ok s') :
    s'.plugins = s.plugins ∧ s'.extra = s.extra ∧ s'.hooks = s.hooks := by
  unfold Kernel.initConfig at h
  cases ha : applyPluginsM s (ApplyArgs.obj (Val.str "modifyConfig") k.configInitial Val.undefined) with
  | error es => rw [ha] at h; cases h
  | ok r =>
      obtain ⟨v, s1⟩ := r
      rw [ha] at h
      injection h with h
      subst h
      obtain ⟨h1, h2, h3, _⟩ := applyPluginsM_ok_fields _ _ _ _ ha
      exact ⟨h1, h2, h3⟩

/-- The path stage keeps the plugins map, the extra queue and the hooks
map. -/
theorem initPaths_ok_fields (k : Kernel) (s s' : KernelState)
    (h : k.initPaths s = .ok s') :
    s'.plugins = s.plugins ∧ s'.extra = s.extra ∧ s'.hooks = s.hooks := by
  unfold Kernel.initPaths at h
  split at h
  · cases h
  · split at h
    · cases h
    · split at h
      · cases h
      · split at h
        · cases h
        · split at h
          · cases h
          · rename_i v s1 heq
            injection h with h
            subst h
            obtain ⟨g1, g2, g3, _⟩ := applyPluginsM_ok_fields _ _ _ _ heq
            exact ⟨g1, g2, g3⟩

/-- C2 (amended): a second `init` on the same kernel does reset the
plugins map but repopulates it to the same value (the resolution is
deterministic), while the hooks map — never reset — receives every hook
registration a second time: each chain after the second `init` is the
first-`init` chain followed by itself.  `init` is therefore idempotent
with respect to the plugins map but not the hooks map. -/
theorem c2_amended_idempotence (k : Kernel) (s1 s2 : KernelState)
    (h1 : k.init freshState = .ok s1) (h2 : k.init s1 = .ok s2) :
    s2.plugins = s1.plugins ∧
    ∀ c, chainHooks s2 c = chainHooks s1 c ++ chainHooks s1 c := by
  unfold Kernel.init at h1 h2
  split at h1
  · cases h1
  rename_i sA hA
  split at h1
  · cases h1
  rename_i sB hB
  split at h1
  · cases h1
  rename_i sC hC
  split at h1
  · cases h1
  rename_i v s1x hD
  injection h1 with h1
  subst h1
  split at h2
  · cases h2
  rename_i sA' hA'
  split at h2
  · cases h2
  rename_i sB' hB'
  split at h2
  · cases h2
  rename_i sC' hC'
  split at h2
  · cases h2
  rename_i v' s2x hD'
  injection h2 with h2
  subst h2
  obtain ⟨fA1, fA2, fA3⟩ := initConfig_ok_fields _ _ _ hA
  obtain ⟨fB1, fB2, fB3⟩ := initPaths_ok_fields _ _ _ hB
  obtain ⟨fD1, _, fD3, _⟩ := applyPluginsM_ok_fields _ _ _ _ hD
  obtain ⟨fA1', fA2', fA3'⟩ := initConfig_ok_fields _ _ _ hA'
  obtain ⟨fB1', fB2', fB3'⟩ := initPaths_ok_fields _ _ _ hB'
  obtain ⟨fD1', _, fD3', _⟩ := applyPluginsM_ok_fields _ _ _ _ hD'
  obtain ⟨dp, _, δ, hδ1, hδ2⟩ := initPresetsAndPlugins_det k sB sB' sC sC' hC hC'
  have e1 : s1x.hooks = δ := by
    rw [fD3, hδ1, fB3, fA3]
    simp [freshState]
  have e2 : s2x.hooks = s1x.hooks ++ δ := by
    rw [fD3', hδ2, fB3', fA3']
  constructor
  · rw [fD1', ← dp, fD1]
  · intro c
    unfold chainHooks
    rw [e2, e1]
    simp [List.filter_append]

/-- C2 counterexample: on a kernel whose plugin taps chain `"x"` once,
the first `init` leaves one entry on the chain and a second `init`
leaves two — the hooks map is not idempotent under repeated `init`. -/
theorem c2_counterexample :
    c2kernel.init freshState = .ok c2s1 ∧
    c2kernel.init c2s1 = .ok c2s2 ∧
    (chainHooks c2s1 "x").length = 1 ∧
    (chainHooks c2s2 "x").length = 2 ∧
    chainHooks c2s2 "x" ≠ chainHooks c2s1 "x" := by
  refine ⟨rfl, rfl, rfl, rfl, ?_⟩
  intro hEq
  have hl := congrArg List.length hEq
  rw [show (chainHooks c2s2 "x").length = 2 from rfl,
      show (chainHooks c2s1 "x").length = 1 from rfl] at hl
  omega

/-- C2 witness: the amended idempotence at the concrete kernel — the
plugins maps of the two `init` results agree and the `"x"` chain
doubles. -/
theorem c2_amended_idempotence_witness :
    c2s2.plugins = c2s1.plugins ∧
    chainHooks c2s2 "x" = chainHooks c2s1 "x" ++ chainHooks c2s1 "x" :=
  ⟨(c2_amended_idempotence c2kernel c2s1 c2s2 rfl rfl).1,
   (c2_amended_idempotence c2kernel c2s1 c2s2 rfl rfl).2 "x"⟩

/-- The waterfall only appends events of its own chain to the trace,
whether it succeeds or throws. -/
theorem runTaps_trace (c : String) (o : Val) (ts : List Tap) :
    ∀ (arg : Val) (acc : List Val) (tr : List Ev),
    ∃ ex, rtTrace (runTaps c o ts arg acc tr) = tr ++ ex ∧
      ∀ e ∈ ex, ∃ hid, e = Ev.hookRun c hid := by
  induction ts with
  | nil => intro arg acc tr; exact ⟨[], by simp [runTaps, rtTrace], by simp⟩
  | cons t ts ih =>
      intro arg acc tr
      cases hf : t.h.fn arg o with
      | error e =>
          refine ⟨[Ev.hookRun c t.h.hid], ?_, by simp⟩
          simp [runTaps, hf, rtTrace]
      | ok r =>
          obtain ⟨ex, hex, hall⟩ :=
            ih (Val.arr (acc ++ [r])) (acc ++ [r]) (tr ++ [Ev.hookRun c t.h.hid])
          refine ⟨Ev.hookRun c t.h.hid :: ex, ?_, ?_⟩
          · simp only [runTaps, hf]
            rw [hex]
            simp
          · intro e he
            rcases List.mem_cons.mp he with h | h
            · exact ⟨t.h.hid, h⟩
            · exact hall e h

/-- The trace of a chain execution is the trace of its raw waterfall. -/
theorem runOrdered_trace (s : KernelState) (name : String) (v o : Val)
    (taps : List Tap) :
    exceptTraceV (runOrdered s name v o taps)
      = rtTrace (runTaps name o taps v [] s.trace) := by
  unfold runOrdered
  cases runTaps name o taps v [] s.trace with
  | error e =>
      obtain ⟨e1, t1⟩ := e
      rfl
  | ok r =>
      obtain ⟨v0, a0, t0⟩ := r
      rfl

/-- `applyPlugins` only appends events of the requested chain to the
trace, whether it succeeds or throws. -/
theorem applyPluginsM_trace (s : KernelState) (a : ApplyArgs) :
    ∃ ex, exceptTraceV (applyPluginsM s a) = s.trace ++ ex ∧
      ∀ e ∈ ex, ∃ n hid, applyName a = some n ∧ e = Ev.hookRun n hid := by
  cases a with
  | str n =>
      obtain ⟨ex, hex, hall⟩ :=
        runTaps_trace n Val.undefined (orderTaps (chainHooks s n)) Val.undefined [] s.trace
      refine ⟨ex, ?_, fun e he => ?_⟩
      · rw [show applyPluginsM s (ApplyArgs.str n)
            = runOrdered s n Val.undefined Val.undefined (orderTaps (chainHooks s n)) from rfl,
          runOrdered_trace]
        exact hex
      · obtain ⟨hid, hh⟩ := hall e he
        exact ⟨n, hid, rfl, hh⟩
  | obj nameV iv o =>
      cases nameV with
      | str n =>
          obtain ⟨ex, hex, hall⟩ :=
            runTaps_trace n o (orderTaps (chainHooks s n)) iv [] s.trace
          refine ⟨ex, ?_, fun e he => ?_⟩
          · rw [show applyPluginsM s (ApplyArgs.obj (Val.str n) iv o)
                = runOrdered s n iv o (orderTaps (chainHooks s n)) from rfl,
              runOrdered_trace]
            exact hex
          · obtain ⟨hid, hh⟩ := hall e he
            exact ⟨n, hid, rfl, hh⟩
      | undefined => exact ⟨[], by simp [applyPluginsM, exceptTraceV], by simp⟩
      | num m => exact ⟨[], by simp [applyPluginsM, exceptTraceV], by simp⟩
      | arr xs => exact ⟨[], by simp [applyPluginsM, exceptTraceV], by simp⟩
      | obj fs => exact ⟨[], by simp [applyPluginsM, exceptTraceV], by simp⟩

/-- Plugin registration never touches the trace. -/
theorem registerPlugin_trace (pid : String) (s : KernelState) :
    exceptTrace (registerPlugin pid s) = s.trace := by
  unfold registerPlugin
  by_cases hm : pid ∈ s.plugins
  · rw [if_pos hm]; rfl
  · rw [if_neg hm]; rfl

/-- Trace extension composes across sequencing. -/
theorem exSeq_trace (P : Ev → Prop)
    (f g : KernelState → Except (Err × KernelState) KernelState)
    (hf : ∀ s, ∃ ex, exceptTrace (f s) = s.trace ++ ex ∧ ∀ e ∈ ex, P e)
    (hg : ∀ s, ∃ ex, exceptTrace (g s) = s.trace ++ ex ∧ ∀ e ∈ ex, P e) :
    ∀ s, ∃ ex, exceptTrace (exSeq f g s) = s.trace ++ ex ∧ ∀ e ∈ ex, P e := by
  intro s
  unfold exSeq
  cases hfs : f s with
  | error es =>
      obtain ⟨ex, hex, hall⟩ := hf s
      rw [hfs] at hex
      exact ⟨ex, hex, hall⟩
  | ok s1 =>
      obtain ⟨ex1, hex1, hall1⟩ := hf s
      rw [hfs] at hex1
      obtain ⟨ex2, hex2, hall2⟩ := hg s1
      refine ⟨ex1 ++ ex2, ?_, fun e he => ?_⟩
      · show exceptTrace (g s1) = s.trace ++ (ex1 ++ ex2)
        rw [hex2, show s1.trace = s.trace ++ ex1 from hex1, List.append_assoc]
      · rcases List.mem_append.mp he with h | h
        · exact hall1 e h
        · exact hall2 e h

mutual

/-- Preset expansion appends only setup events to the trace. -/
theorem initPreset_trace : ∀ (p : PItem) (s : KernelState),
    ∃ ex, exceptTrace (initPreset p s) = s.trace ++ ex ∧
      ∀ e ∈ ex, ∃ i, e = Ev.setup i
  | PItem.mk pid pre plu hds cds pds, s =>
      exSeq_trace (fun e => ∃ i, e = Ev.setup i)
        (fun s => .ok (runSetup (PItem.mk pid pre plu hds cds pds) s))
        (exSeq (registerPlugin pid)
          (exSeq (initPresetList pre)
            (fun s => .ok { s with extra := s.extra ++ plu })))
        (fun s => ⟨[Ev.setup pid], rfl, by simp⟩)
        (exSeq_trace _ _ _
          (fun s => ⟨[], by simp [registerPlugin_trace], by simp⟩)
          (exSeq_trace _ _ _
            (fun s => initPresetList_trace pre s)
            (fun s => ⟨[], by simp [exceptTrace], by simp⟩)))
        s

/-- Draining a preset queue appends only setup events. -/
theorem initPresetList_trace : ∀ (ps : List PItem) (s : KernelState),
    ∃ ex, exceptTrace (initPresetList ps s) = s.trace ++ ex ∧
      ∀ e ∈ ex, ∃ i, e = Ev.setup i
  | [], s => ⟨[], by simp [initPresetList, exceptTrace], by simp⟩
  | p :: ps, s =>
      exSeq_trace _ (initPreset p) (initPresetList ps)
        (fun s => initPreset_trace p s) (fun s => initPresetList_trace ps s) s

end

/-- Plugin initialization appends only its setup event. -/
theorem initPlugin_trace (p : PItem) (s : KernelState) :
    ∃ ex, exceptTrace (initPlugin p s) = s.trace ++ ex ∧
      ∀ e ∈ ex, ∃ i, e = Ev.setup i :=
  exSeq_trace (fun e => ∃ i, e = Ev.setup i)
    (registerPlugin p.id) (fun s => .ok (runSetup p s))
    (fun s => ⟨[], by simp [registerPlugin_trace], by simp⟩)
    (fun s => ⟨[Ev.setup p.id], rfl, by simp⟩) s

/-- Draining a plugin queue appends only setup events. -/
theorem initPluginList_trace : ∀ (ps : List PItem) (s : KernelState),
    ∃ ex, exceptTrace (initPluginList ps s) = s.trace ++ ex ∧
      ∀ e ∈ ex, ∃ i, e = Ev.setup i
  | [], s => ⟨[], by simp [initPluginList, exceptTrace], by simp⟩
  | p :: ps, s =>
      exSeq_trace _ (initPlugin p) (initPluginList ps)
        (fun s => initPlugin_trace p s) (fun s => initPluginList_trace ps s) s

/-- `resolvePlugins` appends only setup events. -/
theorem resolvePlugins_trace (ps : List PItem) (s : KernelState) :
    ∃ ex, exceptTrace (resolvePlugins ps s) = s.trace ++ ex ∧
      ∀ e ∈ ex, ∃ i, e = Ev.setup i := by
  unfold resolvePlugins
  cases hr : initPluginList (s.extra ++ ps) s with
  | error es =>
      obtain ⟨ex, hex, hall⟩ := initPluginList_trace (s.extra ++ ps) s
      rw [hr] at hex
      exact ⟨ex, hex, hall⟩
  | ok s1 =>
      obtain ⟨ex, hex, hall⟩ := initPluginList_trace (s.extra ++ ps) s
      rw [hr] at hex
      exact ⟨ex, hex, hall⟩

/-- `initPresetsAndPlugins` appends only setup events. -/
theorem initPresetsAndPlugins_trace (k : Kernel) (s : KernelState) :
    ∃ ex, exceptTrace (initPresetsAndPlugins k s) = s.trace ++ ex ∧
      ∀ e ∈ ex, ∃ i, e = Ev.setup i := by
  have h := exSeq_trace (fun e => ∃ i, e = Ev.setup i)
    (resolvePresets k.optsPresets) (resolvePlugins k.optsPlugins)
    (fun s => initPresetList_trace k.optsPresets s)
    (fun s => resolvePlugins_trace k.optsPlugins s)
    { s with plugins := [], extra := [] }
  exact h

/-- The config stage appends only `modifyConfig` chain events. -/
theorem initConfig_trace (k : Kernel) (s : KernelState) :
    ∃ ex, exceptTrace (k.initConfig s) = s.trace ++ ex ∧
      ∀ e ∈ ex, ∃ hid, e = Ev.hookRun "modifyConfig" hid := by
  unfold Kernel.initConfig
  obtain ⟨ex, hex, hall⟩ :=
    applyPluginsM_trace s (ApplyArgs.obj (Val.str "modifyConfig") k.configInitial Val.undefined)
  cases ha : applyPluginsM s (ApplyArgs.obj (Val.str "modifyConfig") k.configInitial Val.undefined) with
  | error es =>
      obtain ⟨e1, s1⟩ := es
      rw [ha] at hex
      refine ⟨ex, hex, fun e he => ?_⟩
      obtain ⟨n, hid, hn, hh⟩ := hall e he
      injection hn with hn
      subst hn
      exact ⟨hid, hh⟩
  | ok r =>
      obtain ⟨v, s1⟩ := r
      rw [ha] at hex
      refine ⟨ex, hex, fun e he => ?_⟩
      obtain ⟨n, hid, hn, hh⟩ := hall e he
      injection hn with hn
      subst hn
      exact ⟨hid, hh⟩

/-- The tail of the path stage appends only `modifyPaths` chain
events, whatever seed object it is run on. -/
theorem modifyPathsTail_trace (s : KernelState) (seed : Val) :
    ∃ ex, exceptTrace (match applyPluginsM s (ApplyArgs.obj (Val.str "modifyPaths") seed Val.undefined) with
        | .error es => .error es
        | .ok (v, s1) => .ok { s1 with paths := v }) = s.trace ++ ex ∧
      ∀ e ∈ ex, ∃ hid, e = Ev.hookRun "modifyPaths" hid := by
  obtain ⟨ex, hex, hall⟩ :=
    applyPluginsM_trace s (ApplyArgs.obj (Val.str "modifyPaths") seed Val.undefined)
  cases ha : applyPluginsM s (ApplyArgs.obj (Val.str "modifyPaths") seed Val.undefined) with
  | error es =>
      obtain ⟨e1, s1⟩ := es
      rw [ha] at hex
      refine ⟨ex, hex, fun e he => ?_⟩
      obtain ⟨n, hid, hn, hh⟩ := hall e he
      injection hn with hn
      subst hn
      exact ⟨hid, hh⟩
  | ok r =>
      obtain ⟨v, s1⟩ := r
      rw [ha] at hex
      refine ⟨ex, hex, fun e he => ?_⟩
      obtain ⟨n, hid, hn, hh⟩ := hall e he
      injection hn with hn
      subst hn
      exact ⟨hid, hh⟩

/-- The path stage appends only `modifyPaths` chain events (the early
TypeError exits append nothing). -/
theorem initPaths_trace (k : Kernel) (s : KernelState) :
    ∃ ex, exceptTrace (k.initPaths s) = s.trace ++ ex ∧
      ∀ e ∈ ex, ∃ hid, e = Ev.hookRun "modifyPaths" hid := by
  unfold Kernel.initPaths
  split
  · exact ⟨[], by simp [exceptTrace], by simp⟩
  · split
    · exact ⟨[], by simp [exceptTrace], by simp⟩
    · split
      · exact ⟨[], by simp [exceptTrace], by simp⟩
      · split
        · exact ⟨[], by simp [exceptTrace], by simp⟩
        · exact modifyPathsTail_trace s _

/-- Emitting a named chain and discarding its value appends only that
chain's events. -/
theorem emitStage_trace (n : String) (s : KernelState) :
    ∃ ex, exceptTrace (match applyPluginsM s (ApplyArgs.str n) with
        | .error es => .error es
        | .ok (_, s4) => .ok s4) = s.trace ++ ex ∧
      ∀ e ∈ ex, ∃ hid, e = Ev.hookRun n hid := by
  obtain ⟨ex, hex, hall⟩ := applyPluginsM_trace s (ApplyArgs.str n)
  cases ha : applyPluginsM s (ApplyArgs.str n) with
  | error es =>
      obtain ⟨e1, s1⟩ := es
      rw [ha] at hex
      refine ⟨ex, hex, fun e he => ?_⟩
      obtain ⟨n', hid, hn, hh⟩ := hall e he
      injection hn with hn
      subst hn
      exact ⟨hid, hh⟩
  | ok r =>
      obtain ⟨v, s1⟩ := r
      rw [ha] at hex
      refine ⟨ex, hex, fun e he => ?_⟩
      obtain ⟨n', hid, hn, hh⟩ := hall e he
      injection hn with hn
      subst hn
      exact ⟨hid, hh⟩

/-- `init` appends only setup events and lifecycle chain events
(`modifyConfig`, `modifyPaths`, `onReady`). -/
theorem init_trace (k : Kernel) (s : KernelState) :
    ∃ ex, exceptTrace (k.init s) = s.trace ++ ex ∧
      ∀ e ∈ ex, (∃ i, e = Ev.setup i) ∨
        ∃ n hid, e = Ev.hookRun n hid ∧ n ∈ lifecycleChains := by
  have h := exSeq_trace
    (fun e => (∃ i, e = Ev.setup i) ∨
      ∃ n hid, e = Ev.hookRun n hid ∧ n ∈ lifecycleChains)
    (fun s => k.initConfig s)
    (exSeq (fun s => k.initPaths s)
      (exSeq (fun s => initPresetsAndPlugins k s)
        (fun s => match applyPluginsM s (ApplyArgs.str "onReady") with
          | .error es => .error es
          | .ok (_, s4) => .ok s4)))
    (fun s => by
      obtain ⟨ex, hex, hall⟩ := initConfig_trace k s
      refine ⟨ex, hex, fun e he => ?_⟩
      obtain ⟨hid, hh⟩ := hall e he
      exact Or.inr ⟨"modifyConfig", hid, hh, by simp [lifecycleChains]⟩)
    (exSeq_trace _ _ _
      (fun s => by
        obtain ⟨ex, hex, hall⟩ := initPaths_trace k s
        refine ⟨ex, hex, fun e he => ?_⟩
        obtain ⟨hid, hh⟩ := hall e he
        exact Or.inr ⟨"modifyPaths", hid, hh, by simp [lifecycleChains]⟩)
      (exSeq_trace _ _ _
        (fun s => by
          obtain ⟨ex, hex, hall⟩ := initPresetsAndPlugins_trace k s
          exact ⟨ex, hex, fun e he => Or.inl (hall e he)⟩)
        (fun s => by
          obtain ⟨ex, hex, hall⟩ := emitStage_trace "onReady" s
          refine ⟨ex, hex, fun e he => ?_⟩
          obtain ⟨hid, hh⟩ := hall e he
          exact Or.inr ⟨"onReady", hid, hh, by simp [lifecycleChains]⟩)))
    s
  exact h

/-- `startUp` (`init` plus the `onStart` emission) appends only setup
events and lifecycle chain events. -/
theorem startUp_trace (k : Kernel) (s : KernelState) :
    ∃ ex, exceptTrace (k.startUp s) = s.trace ++ ex ∧
      ∀ e ∈ ex, (∃ i, e = Ev.setup i) ∨
        ∃ n hid, e = Ev.hookRun n hid ∧ n ∈ lifecycleChains := by
  have h := exSeq_trace
    (fun e => (∃ i, e = Ev.setup i) ∨
      ∃ n hid, e = Ev.hookRun n hid ∧ n ∈ lifecycleChains)
    (fun s => k.init s)
    (fun s => match applyPluginsM s (ApplyArgs.str "onStart") with
      | .error es => .error es
      | .ok (_, s4) => .ok s4)
    (fun s => init_trace k s)
    (fun s => by
      obtain ⟨ex, hex, hall⟩ := emitStage_trace "onStart" s
      refine ⟨ex, hex, fun e he => ?_⟩
      obtain ⟨hid, hh⟩ := hall e he
      exact Or.inr ⟨"onStart", hid, hh, by simp [lifecycleChains]⟩)
    s
  exact h

/-- C7 (amended): when the requested platform is a non-empty string
absent from the post-startup platform registry and the command name is
not one of the four lifecycle chains emitted during startup, `run`
fails (with the unknown-command or unknown-platform error) and no
handler of the command's chain ever executes. -/
theorem c7_amended_platform_guard (k : Kernel) (s0 : KernelState) (name : String)
    (opts : Val) (s1 : KernelState) (p : String)
    (hstart : k.startUp s0 = .ok s1)
    (hplat : getField opts "platform" = .ok (Val.str p))
    (hpne : p ≠ "")
    (hreg : alistGet? s1.platforms p = none)
    (hname : name ∉ lifecycleChains)
    (hclean : ∀ hid, Ev.hookRun name hid ∉ s0.trace) :
    (runErr? (k.run s0 (RunArgs.obj (Val.str name) opts))).isSome = true ∧
    ∀ hid, Ev.hookRun name hid ∉ exceptTraceV (k.run s0 (RunArgs.obj (Val.str name) opts)) := by
  have htr : ∀ hid, Ev.hookRun name hid ∉ s1.trace := by
    obtain ⟨ex, hex, hall⟩ := startUp_trace k s0
    rw [hstart] at hex
    intro hid hmem
    rw [show s1.trace = s0.trace ++ ex from hex] at hmem
    rcases List.mem_append.mp hmem with h | h
    · exact hclean hid h
    · rcases hall _ h with ⟨i, hi⟩ | ⟨n, hid', hh, hn⟩
      · cases hi
      · injection hh with h1 h2
        subst h1
        exact hname hn
  have hrun : k.run s0 (RunArgs.obj (Val.str name) opts) = k.dispatch (Val.str name) opts s1 := by
    simp only [Kernel.run, hstart]
  rw [hrun]
  unfold Kernel.dispatch
  have htruthy : truthy (Val.str p) = true := by simp [truthy, hpne]
  cases hcmd : commandsHas s1 (Val.str name) with
  | false =>
      simp only [hcmd, Bool.false_eq_true, if_false]
      exact ⟨rfl, htr⟩
  | true =>
      simp only [hcmd, if_true, hplat, htruthy, Kernel.runWithPlatform, hreg]
      exact ⟨rfl, htr⟩

/-- C7 counterexample: with the command name `onStart` (unregistered)
and an unregistered platform `nope`, the run does fail, but a handler
of the `onStart` chain — the requested command's chain — has already
executed during the `onStart` emission, so the failure is not before
every handler of that chain. -/
theorem c7_counterexample :
    c7kernel.run freshState (RunArgs.obj (Val.str "onStart") c7opts)
      = .error (.noCommand (Val.str "onStart"), c7err) ∧
    alistGet? c7err.platforms "nope" = none ∧
    Ev.hookRun "onStart" "h7" ∈ c7err.trace :=
  ⟨rfl, rfl, by decide⟩

/-- C7 witness: the amended guard at a concrete kernel with command
`build` registered, platform `nope` unregistered. -/
theorem c7_amended_platform_guard_witness :
    (runErr? (cbKernel.run freshState (RunArgs.obj (Val.str "build") c7opts))).isSome = true ∧
    Ev.hookRun "build" "b" ∉ exceptTraceV (cbKernel.run freshState (RunArgs.obj (Val.str "build") c7opts)) :=
  ⟨(c7_amended_platform_guard cbKernel freshState "build" c7opts cbAfterStart "nope"
      rfl rfl (by decide) rfl (by decide) (fun hid => by simp [freshState])).1,
   (c7_amended_platform_guard cbKernel freshState "build" c7opts cbAfterStart "nope"
      rfl rfl (by decide) rfl (by decide) (fun hid => by simp [freshState])).2 "b"⟩

/-- C10 (amended): for a command registered at startup whose name is
not a lifecycle chain, `run` with a bare string argument or with an
object lacking `opts` throws the TypeError from the unconditional
`opts.platform` read — after the `onStart` emission (the error state is
the post-startup state) and after the command-existence check passed —
and no handler of the command's chain ever executes; the command chain
is dispatched only when the `opts.platform` read does not throw. -/
theorem c10_amended_undefined_opts (k : Kernel) (s0 : KernelState) (name : String)
    (s1 : KernelState)
    (hstart : k.startUp s0 = .ok s1)
    (hcmd : commandsHas s1 (Val.str name) = true)
    (hname : name ∉ lifecycleChains)
    (hclean : ∀ hid, Ev.hookRun name hid ∉ s0.trace) :
    k.run s0 (RunArgs.str name) = .error (.typeError, s1) ∧
    k.run s0 (RunArgs.obj (Val.str name) Val.undefined) = .error (.typeError, s1) ∧
    ∀ hid, Ev.hookRun name hid ∉ s1.trace := by
  have htr : ∀ hid, Ev.hookRun name hid ∉ s1.trace := by
    obtain ⟨ex, hex, hall⟩ := startUp_trace k s0
    rw [hstart] at hex
    intro hid hmem
    rw [show s1.trace = s0.trace ++ ex from hex] at hmem
    rcases List.mem_append.mp hmem with h | h
    · exact hclean hid h
    · rcases hall _ h with ⟨i, hi⟩ | ⟨n, hid', hh, hn⟩
      · cases hi
      · injection hh with h1 h2
        subst h1
        exact hname hn
  refine ⟨?_, ?_, htr⟩
  · have hrun : k.run s0 (RunArgs.str name) = k.dispatch (Val.str name) Val.undefined s1 := by
      simp only [Kernel.run, hstart]
    rw [hrun]
    unfold Kernel.dispatch
    simp only [hcmd, if_true, getField]
  · have hrun : k.run s0 (RunArgs.obj (Val.str name) Val.undefined)
        = k.dispatch (Val.str name) Val.undefined s1 := by
      simp only [Kernel.run, hstart]
    rw [hrun]
    unfold Kernel.dispatch
    simp only [hcmd, if_true, getField]

/-- C10 counterexample: `onStart` registered as a command and also
tapped — a bare-string `run('onStart')` does throw the TypeError from
`opts.platform` after the command check, but handlers of the `onStart`
chain (the command's chain) have already executed during the `onStart`
emission, so the throw is not before every handler of that chain. -/
theorem c10_counterexample :
    c10kernel.run freshState (RunArgs.str "onStart") = .error (.typeError, c10err) ∧
    commandsHas c10err (Val.str "onStart") = true ∧
    Ev.hookRun "onStart" "h" ∈ c10err.trace :=
  ⟨rfl, rfl, by decide⟩

/-- C10 witness: the amended statement at a concrete kernel whose
plugin registers command `build`; `run('build')` with no opts throws
the TypeError and the `build` chain never runs. -/
theorem c10_amended_undefined_opts_witness :
    cbKernel.run freshState (RunArgs.str "build") = .error (.typeError, cbAfterStart) ∧
    cbKernel.run freshState (RunArgs.obj (Val.str "build") Val.undefined)
      = .error (.typeError, cbAfterStart) ∧
    Ev.hookRun "build" "b" ∉ cbAfterStart.trace :=
  ⟨(c10_amended_undefined_opts cbKernel freshState "build" cbAfterStart
      rfl rfl (by decide) (fun hid => by simp [freshState])).1,
   (c10_amended_undefined_opts cbKernel freshState "build" cbAfterStart
      rfl rfl (by decide) (fun hid => by simp [freshState])).2.1,
   (c10_amended_undefined_opts cbKernel freshState "build" cbAfterStart
      rfl rfl (by decide) (fun hid => by simp [freshState])).2.2 "b"⟩
